import Mathlib

/-!
Shallow embedding of the connection/request-correlation core of the golos-js
client (src/api/index.js): the request multiplexer (`send`), the message
dispatcher (the ws `message` listener plus `Golos.prototype.onMessage`), the
connection manager (`start`), the four-layer streaming pipeline
(`streamBlockNumber` / `streamBlock` / `streamTransactions` /
`streamOperations`) and the registry-driven method binding
(`Golos$specializedSend` / `Golos$$specializedSendWith`).

JavaScript values that the claims inspect are modelled by a small inductive
`JVal`; absent object fields are `Option`; machine integers are `Int`/`Nat`
(JavaScript numbers here are ids and block numbers, always small integers).
-/

/-- Model of the JavaScript values that flow through the parts of the client
the claims are about: primitives plus an opaque stand-in `parsed raw` for the
result of JSON.parse applied to a registry default string. -/
inductive JVal
  | null
  | bool (b : Bool)
  | num (n : Int)
  | str (s : String)
  | parsed (raw : String)
deriving DecidableEq, Repr

/-- JavaScript truthiness for the `JVal` fragment: undefined/null, false, 0
and the empty string are falsy; a value produced by JSON.parse of a nonempty
registry default (an object, array or nonzero literal in the actual registry)
is modelled truthy. -/
def jvTruthy : JVal → Bool
  | .null => false
  | .bool b => b
  | .num n => n ≠ 0
  | .str s => s ≠ ""
  | .parsed _ => true

/-- The fixed list of subscription-style methods, `cbMethods` in
src/api/index.js lines 29-33. -/
def cbMethods : List String :=
  ["set_block_applied_callback", "set_pending_transaction_callback", "set_callback"]

/-- The `data` argument of `Golos.prototype.send`: an optional explicit `id`
field (absent = `none`), the rpc method name and its positional params. -/
structure SendData where
  id? : Option Int
  method : String
  params : List JVal
deriving DecidableEq, Repr

/-- What `send` stores in `this.requests[id]` / `this.callbacks[id]`
(lines 181-194); the `resolve` / `reject` / `cb` closures and `start_time`
are modelled by the dispatch actions below rather than stored. -/
structure TableEntry where
  api : String
  data : SendData
deriving DecidableEq, Repr

/-- The mutable state of one `Golos` client instance that the claims touch:
the auto-id counter `this.id`, whether `this.ws` is present, and the two
lookup tables `this.requests` and `this.callbacks` (keyed by message id). -/
structure ClientState where
  idCtr : Nat
  wsPresent : Bool
  requests : Int → Option TableEntry
  callbacks : Int → Option TableEntry

/-- Point update of an id-keyed table (JS `this.requests[id] = entry`). -/
def setKeyI (f : Int → Option TableEntry) (k : Int) (v : TableEntry) :
    Int → Option TableEntry :=
  fun i => if i = k then some v else f i

/-- Point deletion from an id-keyed table (JS `delete this.requests[id]`). -/
def eraseKeyI (f : Int → Option TableEntry) (k : Int) : Int → Option TableEntry :=
  fun i => if i = k then none else f i

/-- Line 158, `const id = data.id || this.id++`: a present and truthy
(nonzero) `data.id` is used as is and the counter is untouched; an absent or
zero (falsy) `data.id` falls through to the post-increment of `this.id`.
Returns the resolved id and the new counter. -/
def resolveId (ctr : Nat) (id? : Option Int) : Int × Nat :=
  match id? with
  | some n => if n ≠ 0 then (n, ctr) else ((ctr : Int), ctr + 1)
  | none => ((ctr : Int), ctr + 1)

/-- The wire envelope built at lines 168-177:
`{id, method: 'call', jsonrpc: '2.0', params: [api, data.method, data.params]}`. -/
structure Envelope where
  id : Int
  method : String
  jsonrpc : String
  api : String
  rpcMethod : String
  rpcParams : List JVal
deriving DecidableEq, Repr

/-- Outcome of one `send` dispatch: the returned promise rejects with the
given error message, or the serialized envelope is written to the socket. -/
inductive SendOutcome
  | failed (errMsg : String)
  | sent (env : Envelope)
deriving DecidableEq, Repr

/-- `Golos.prototype.send` (lines 156-201): resolve the id (consuming the
counter when `data.id` is absent or falsy), then, in the dispatch step that
runs after the shared connect promise, reject if `this.ws` is gone, else
register the call in `this.callbacks` (subscription-style method) or
`this.requests` and write the envelope. -/
def send (s : ClientState) (api : String) (data : SendData) :
    ClientState × SendOutcome :=
  let idc := resolveId s.idCtr data.id?
  let s1 : ClientState := { s with idCtr := idc.2 }
  if s.wsPresent = false then
    (s1, .failed "The WS connection was closed while this request was pending")
  else
    let env : Envelope :=
      { id := idc.1, method := "call", jsonrpc := "2.0",
        api := api, rpcMethod := data.method, rpcParams := data.params }
    if data.method ∈ cbMethods then
      ({ s1 with callbacks := setKeyI s1.callbacks idc.1 ⟨api, data⟩ }, .sent env)
    else
      ({ s1 with requests := setKeyI s1.requests idc.1 ⟨api, data⟩ }, .sent env)

/-- The id `send` stamps on a call, as resolved at line 158 before dispatch. -/
def sendAssignedId (s : ClientState) (data : SendData) : Int :=
  (resolveId s.idCtr data.id?).1

/-- The envelope id carried by a dispatch outcome, if any. -/
def envIdOf : SendOutcome → Option Int
  | .failed _ => none
  | .sent env => some env.id

/-- The state of a fresh `Golos` instance (constructor, lines 38-49):
`this.id = 0`, no socket yet, both tables empty. -/
def mkClient : ClientState :=
  { idCtr := 0, wsPresent := false, requests := fun _ => none,
    callbacks := fun _ => none }

/-- Runs a list of `send` calls on one instance, collecting the id assigned
to each call (each call threads the state left by the previous one). -/
def runSends (s : ClientState) : List (String × SendData) → List Int
  | [] => []
  | (api, d) :: rest =>
    sendAssignedId s d :: runSends (send s api d).1 rest

/-- An inbound wire frame after `JSON.parse(message.data)` (line 88): the
fields the dispatcher reads. `error` models a truthy `error` field (in the
protocol always an object); an absent — or JSON-null, hence falsy — `error`
is `none`. -/
structure ErrObj where
  message : Option String
deriving DecidableEq, Repr

/-- An inbound message frame as seen by the ws `message` listener. -/
structure InMsg where
  id : Int
  error : Option ErrObj
  result : JVal
deriving DecidableEq, Repr

/-- Result of `this.requests[id] || this.callbacks[id]` (line 90), tagged
with the table the entry came from (a requests entry carries `resolve` /
`reject`, a callbacks entry carries `cb`). -/
inductive LookedUp
  | fromRequests (e : TableEntry)
  | fromCallbacks (e : TableEntry)
deriving DecidableEq, Repr

/-- Line 90: look up the pending call first, then the subscription. -/
def lookupEntry (s : ClientState) (id : Int) : Option LookedUp :=
  match s.requests id with
  | some e => some (.fromRequests e)
  | none =>
    match s.callbacks id with
    | some e => some (.fromCallbacks e)
    | none => none

/-- The message attached to the rejection error built at lines 137-142:
`(errorCause.message || 'Failed to complete operation') + ' (see err.payload
for the full error payload)'`. -/
def rejectText (msg : InMsg) : String :=
  (match msg.error with
   | some e =>
     match e.message with
     | some m => if m = "" then "Failed to complete operation" else m
     | none => "Failed to complete operation"
   | none => "Failed to complete operation") ++
  " (see err.payload for the full error payload)"

/-- The externally visible effect of dispatching one inbound frame. A
`rejected` action carries the error text and, as `err.payload`, the full
inbound message; `crashed` marks the paths where the code calls an undefined
closure (e.g. `reject` destructured from a callbacks entry). -/
inductive DispatchAction
  | dropped
  | rejected (errText : String) (payload : InMsg)
  | resolved (id : Int) (result : JVal)
  | notified (id : Int) (result : JVal)
  | crashed
deriving DecidableEq, Repr

/-- `Golos.prototype.onMessage` (lines 132-154), given the entry the listener
looked up: a truthy `error` field rejects via the entry's `reject` (undefined
— a crash — when the entry came from `this.callbacks`); otherwise a
subscription-style method notifies `this.callbacks[message.id].cb` and keeps
the entry, and a plain method deletes the request entry and resolves. -/
def onMessage (s : ClientState) (msg : InMsg) (entry : LookedUp) :
    ClientState × DispatchAction :=
  match msg.error with
  | some _ =>
    match entry with
    | .fromRequests _ => (s, .rejected (rejectText msg) msg)
    | .fromCallbacks _ => (s, .crashed)
  | none =>
    let data := match entry with
      | .fromRequests e => e.data
      | .fromCallbacks e => e.data
    if data.method ∈ cbMethods then
      match s.callbacks msg.id with
      | some _ => (s, .notified msg.id msg.result)
      | none => (s, .crashed)
    else
      ({ s with requests := eraseKeyI s.requests msg.id }, .resolved msg.id msg.result)

/-- The ws `message` listener registered by `start` (lines 86-97): parse the
frame, look up a pending call or subscription, drop the frame if neither
exists, else delete the (possible) request entry and hand off to
`onMessage`. -/
def handleWsMessage (s : ClientState) (msg : InMsg) : ClientState × DispatchAction :=
  match lookupEntry s msg.id with
  | none => (s, .dropped)
  | some entry =>
    let s1 : ClientState := { s with requests := eraseKeyI s.requests msg.id }
    onMessage s1 msg entry

/-- The connection-manager state that `Golos.prototype.start` (lines 58-109)
manipulates. A connect promise is identified by a token drawn from
`nextToken`; `startP` holds the token of the current attempt (absent after
`stop`). `wsCount` counts WebSocket constructions and `releases` the
registered listener disposers (three per attempt). -/
structure ConnState where
  startP : Option Nat
  wsCount : Nat
  releases : Nat
  nextToken : Nat
deriving DecidableEq, Repr

/-- `Golos.prototype.start`: if `this.startP` exists it is returned as is;
otherwise a new WebSocket is constructed, open/close/message listeners are
registered, and the fresh promise is stored in `this.startP` and returned. -/
def start (s : ConnState) : ConnState × Nat :=
  match s.startP with
  | some p => (s, p)
  | none =>
    ({ startP := some s.nextToken, wsCount := s.wsCount + 1,
       releases := s.releases + 3, nextToken := s.nextToken + 1 }, s.nextToken)

/-- The body of the gap loop in `streamBlockNumber` (lines 222-227),
`for (let i = current; i < blockId; i++) { if (i !== current) callback(null, i);
current = i; }`, unrolled with fuel `blockId - i` (the number of remaining
iterations): returns the emitted numbers and the final value of `current`. -/
def emitLoopAux : Nat → Nat → Nat → List Nat × Nat
  | 0, cur, _ => ([], cur)
  | fuel + 1, cur, i =>
    let e : List Nat := if i ≠ cur then [i] else []
    let rest := emitLoopAux fuel i (i + 1)
    (e ++ rest.1, rest.2)

/-- The gap loop entered with `i = current = c` and bound `blockId`. -/
def emitLoop (c blockId : Nat) : List Nat × Nat :=
  emitLoopAux (blockId - c) c c

/-- One completed poll of `streamBlockNumber` (the fulfilled branch of the
`getDynamicGlobalPropertiesAsync` promise, lines 215-232): given the closure
variable `current` (`none` models its initial value, the empty string) and
the observed counter `blockId`, returns the numbers passed to the callback
and the new `current`. A `current` equal to 0 is falsy in JS and is treated
like the initial state. -/
def pollStep (current : Option Nat) (blockId : Nat) : List Nat × Option Nat :=
  match current with
  | none => ([blockId], some blockId)
  | some c =>
    if blockId = c then ([], some c)
    else if c = 0 then ([blockId], some blockId)
    else
      let p := emitLoop c blockId
      (p.1, some p.2)

/-- All numbers `streamBlockNumber` passes to its callback across a sequence
of successful polls that observe the given counter values in order. -/
def streamBlockNumberEmits (polls : List Nat) : List Nat :=
  (polls.foldl
    (fun (acc : List Nat × Option Nat) b =>
      let st := pollStep acc.2 b
      (acc.1 ++ st.1, st.2))
    ([], none)).1

/-- The numbers `streamBlock` (lines 249-273) hands to `this.getBlock` when
its upstream `streamBlockNumber` subscription emits the given numbers: the
handler keeps `last` (initially the empty string, modelled `none`) and
fetches exactly when the emitted id differs from `last`. -/
def streamBlockFetchesOf (emits : List Nat) : List Nat :=
  (emits.foldl
    (fun (acc : List Nat × Option Nat) id =>
      if some id ≠ acc.2 then (acc.1 ++ [id], some id) else acc)
    ([], none)).1

/-- The block numbers fetched by `streamBlock` across a sequence of
successful polls observing the given counter values. -/
def streamBlockFetches (polls : List Nat) : List Nat :=
  streamBlockFetchesOf (streamBlockNumberEmits polls)

/-- Operations inside a transaction are opaque to the streaming layers. -/
def Op := String
deriving DecidableEq, Repr

/-- A transaction as delivered inside a fetched block; the `operations`
field may be absent (`none`). -/
structure Transaction where
  operations : Option (List Op)
deriving DecidableEq, Repr

/-- A fetched block; the `transactions` field may be absent (`none`). A
falsy block result altogether is modelled as `none : Option Block`. -/
structure Block where
  transactions : Option (List Transaction)
deriving DecidableEq, Repr

/-- The success path of the `streamTransactions` handler (lines 288-292):
`if (result && result.transactions) result.transactions.forEach(...)` — the
transactions delivered to the downstream callback; a falsy block or an
absent `transactions` field yields none, silently. -/
def streamTransactionsHandler (result : Option Block) : List Transaction :=
  match result with
  | none => []
  | some b =>
    match b.transactions with
    | none => []
    | some txs => txs

/-- The success path of the `streamOperations` handler (line 311):
`transaction.operations.forEach(...)` reads `operations` unconditionally, so
a transaction without an operations list throws a TypeError. -/
def streamOperationsHandler (t : Transaction) : Except String (List Op) :=
  match t.operations with
  | some ops => .ok ops
  | none => .error "TypeError: cannot read property forEach of undefined"

/-- Operations the composed transaction/operation handlers deliver for one
fetched block, with a flag marking that a missing `operations` field threw
mid-iteration (aborting the remaining transactions of that block). -/
def opsOfTxs : List Transaction → List Op × Bool
  | [] => ([], false)
  | t :: ts =>
    match streamOperationsHandler t with
    | .ok ops =>
      let rest := opsOfTxs ts
      (ops ++ rest.1, rest.2)
    | .error _ => ([], true)

/-- Operations delivered for one block result, through
`streamTransactionsHandler` then `streamOperationsHandler`. -/
def opsOfBlock (b : Option Block) : List Op × Bool :=
  opsOfTxs (streamTransactionsHandler b)

/-- The `streamBlock` handler (lines 258-270) run over a batch of upstream
emissions starting from closure variable `last`: returns the block numbers
handed to `this.getBlock` and the new `last`. -/
def streamBlockStep (last : Option Nat) (emits : List Nat) : List Nat × Option Nat :=
  emits.foldl
    (fun (acc : List Nat × Option Nat) id =>
      if some id ≠ acc.2 then (acc.1 ++ [id], some id) else acc)
    ([], last)

/-- State of one running `streamOperations` pipeline: the closure variables
of `streamBlockNumber` (`running`, `current`), of `streamBlock` (`last`),
plus which asynchronous completions are outstanding — at most one
properties poll, the rescheduling timer, and the block fetches issued to
`getBlock`. `crashed` records a TypeError thrown inside a handler. -/
structure PipeState where
  running : Bool
  current : Option Nat
  last : Option Nat
  pollInFlight : Bool
  timerSet : Bool
  fetchesInFlight : List Nat
  crashed : Bool
deriving DecidableEq, Repr

/-- Events of the cooperative event loop driving one pipeline: a poll
promise fulfils with an observed counter value, the `Promise.delay(ts)`
timer fires, a `getBlock` fetch returns its block, or the cancel function
returned by `streamOperations` is invoked. Error completions of the poll or
fetch (the terminal-error paths) are not needed by the claims and are left
out. -/
inductive PipeEvent
  | pollReturn (blockId : Nat)
  | timerFire
  | blockReturn (n : Nat) (b : Option Block)
  | cancel
deriving DecidableEq, Repr

/-- One event step of the pipeline; returns the new state and the operations
passed to the user callback by that event. The fulfilled-poll handler
(lines 215-236) runs unconditionally — `running` is only consulted at the
top of `update` (line 212), i.e. when the timer fires — and always schedules
the delay timer; the `getBlock` callback likewise runs unconditionally.
Events with no matching outstanding completion cannot occur and are
no-ops. -/
def stepEvent (s : PipeState) : PipeEvent → PipeState × List Op
  | .pollReturn blockId =>
    if s.pollInFlight = false then (s, [])
    else
      let pe := pollStep s.current blockId
      let bf := streamBlockStep s.last pe.1
      ({ s with current := pe.2, last := bf.2, pollInFlight := false,
                timerSet := true,
                fetchesInFlight := s.fetchesInFlight ++ bf.1 }, [])
  | .timerFire =>
    if s.timerSet = false then (s, [])
    else
      let s1 := { s with timerSet := false }
      if s1.running then ({ s1 with pollInFlight := true }, []) else (s1, [])
  | .blockReturn n b =>
    if s.fetchesInFlight.contains n = false then (s, [])
    else
      let ob := opsOfBlock b
      ({ s with fetchesInFlight := s.fetchesInFlight.erase n,
                crashed := s.crashed || ob.2 }, ob.1)
  | .cancel => ({ s with running := false }, [])

/-- The per-event lists of operations delivered to the user callback while
running a sequence of events from a given pipeline state. -/
def runOutputs (s : PipeState) : List PipeEvent → List (List Op)
  | [] => []
  | e :: rest =>
    let r := stepEvent s e
    r.2 :: runOutputs r.1 rest

/-- Pipeline state right after `streamOperations(mode, cb)` returns: the
innermost `update()` already ran synchronously and issued the first
properties poll. -/
def initPipe : PipeState :=
  { running := true, current := none, last := none, pollInFlight := true,
    timerSet := false, fetchesInFlight := [], crashed := false }

/-- A named-parameter bag (JS plain object keyed by parameter name). -/
def Obj := String → Option JVal

/-- The empty object literal. -/
def emptyObj : Obj := fun _ => none

/-- Property assignment `o[k] = v`. -/
def setKeyS (o : Obj) (k : String) (v : JVal) : Obj :=
  fun k2 => if k2 = k then some v else o k2

/-- `Object.assign(target, src)`: every own key of `src` overwrites the
corresponding key of `target`; in JS the target object itself is mutated
and returned. -/
def objAssign (target src : Obj) : Obj :=
  fun k =>
    match src k with
    | some v => some v
    | none => target k

/-- Characters before the first `=`. -/
def takeUntilEq : List Char → List Char
  | [] => []
  | c :: r => if c = '=' then [] else c :: takeUntilEq r

/-- Characters after the first `=`, or `none` when there is no `=`. -/
def dropUntilEq : List Char → Option (List Char)
  | [] => none
  | c :: r => if c = '=' then some r else dropUntilEq r

/-- JS `const [p, value] = param.split('=')`: the name before the first `=`
and, when an `=` occurs, the segment between the first and second `=`
(`value` is undefined otherwise). -/
def splitEq (s : String) : String × Option String :=
  let cs := s.data
  (String.mk (takeUntilEq cs), (dropUntilEq cs).map (fun r => String.mk (takeUntilEq r)))

/-- The parameter name of a registry parameter spec such as `"p=1"`. -/
def paramName (p : String) : String := (splitEq p).1

/-- Opaque stand-in for `JSON.parse` applied to a registry default string. -/
def jsonParse (s : String) : JVal := .parsed s

/-- One registry entry as consumed by the method-generation loop
(lines 321-332): the api, the rpc method name, the ordered parameter specs
(`"name"` or `"name=default"`), and the `has_default_values` flag. -/
structure MethodEntry where
  api : String
  method : String
  params : List String
  has_default_values : Bool

/-- The per-method `defaultParms` object built once at generation time
(lines 324-332): for each parameter spec, the parsed default when the part
after `=` is a nonempty string, else the empty string. -/
def initDefaults (e : MethodEntry) : Obj :=
  if e.has_default_values then
    e.params.foldl
      (fun acc param =>
        let pv := splitEq param
        setKeyS acc pv.1
          (match pv.2 with
           | some v => if v = "" then JVal.str "" else jsonParse v
           | none => JVal.str ""))
      emptyObj
  else emptyObj

/-- The argument-collection loop of `Golos$specializedSend` (lines 345-352):
`options[p] = argsWithoutCb[i]` for each parameter spec at index `i` whose
positional argument exists and is truthy. Written by structural recursion,
each parameter consuming the head argument; a later assignment to the same
key overwrites an earlier one, matching the loop order. `argOption` is the
single-parameter contribution: the positional argument when it exists and is
truthy, keyed by the parameter's name. -/
def argOption (p : String) (a? : Option JVal) : Obj :=
  match a? with
  | some a => if jvTruthy a then setKeyS emptyObj (paramName p) a else emptyObj
  | none => emptyObj

def buildOptions : List String → List JVal → Obj
  | [], _ => emptyObj
  | p :: ps, args =>
    objAssign (argOption p args.head?) (buildOptions ps (args.drop 1))

/-- `Golos$$specializedSendWith` (lines 334-341): the positional params
forwarded to `send` are the options looked up per parameter name in declared
order (`undefined`, i.e. `none`, for a name the options lack). -/
def specializedSendWith (e : MethodEntry) (options : Obj) : List (Option JVal) :=
  e.params.map (fun p => options (paramName p))

/-- `Golos$specializedSend` (lines 343-357) applied to the positional
arguments with the trailing callback already stripped
(`args.slice(0, args.length - 1)`): collects truthy arguments into an
options object, executes `options = Object.assign(defaultParms, options)` —
which mutates the shared per-method `defaultParms` — and forwards through
the `...With` variant. Returns the new `defaultParms` object and the
positional parameter list handed to `send`. -/
def specializedSend (e : MethodEntry) (defaults : Obj) (args : List JVal) :
    Obj × List (Option JVal) :=
  let options0 := buildOptions e.params args
  let merged := objAssign defaults options0
  (merged, specializedSendWith e merged)

/-- A sequence of calls of one generated method, threading the shared
(mutated) `defaultParms` object from call to call; yields each call's
positional parameter list as sent. -/
def runCalls (e : MethodEntry) : Obj → List (List JVal) → List (List (Option JVal))
  | _, [] => []
  | d, args :: rest =>
    let r := specializedSend e d args
    r.2 :: runCalls e r.1 rest

lemma emitLoopAux_ne (n : Nat) : ∀ i c : Nat, c ≠ i →
    emitLoopAux (n + 1) c i = (List.range' i (n + 1), i + n) := by
  induction n with
  | zero =>
    intro i c h
    simp [emitLoopAux, Ne.symm h]
  | succ m ih =>
    intro i c h
    have hrec := ih (i + 1) i (by omega)
    have hstep : emitLoopAux (m + 1 + 1) c i =
        ((if i ≠ c then [i] else []) ++ (emitLoopAux (m + 1) i (i + 1)).1,
         (emitLoopAux (m + 1) i (i + 1)).2) := rfl
    rw [hstep, hrec, if_pos (Ne.symm h), List.range'_succ i (m + 1) 1]
    simp only [Prod.mk.injEq, List.singleton_append, List.cons.injEq]
    exact ⟨trivial, by omega⟩

lemma emitLoopAux_self (n i : Nat) :
    emitLoopAux (n + 1) i i = (List.range' (i + 1) n, i + n) := by
  cases n with
  | zero => simp [emitLoopAux]
  | succ m =>
    have hrec := emitLoopAux_ne m (i + 1) i (by omega)
    have hstep : emitLoopAux (m + 1 + 1) i i =
        ((if i ≠ i then [i] else []) ++ (emitLoopAux (m + 1) i (i + 1)).1,
         (emitLoopAux (m + 1) i (i + 1)).2) := rfl
    rw [hstep, hrec, if_neg (by simp)]
    simp only [Prod.mk.injEq, List.nil_append]
    exact ⟨trivial, by omega⟩

lemma pollStep_gap (c b : Nat) (hc : 0 < c) (hb : c < b) :
    pollStep (some c) b = (List.range' (c + 1) (b - c - 1), some (b - 1)) := by
  obtain ⟨n, hn⟩ : ∃ n, b - c = n + 1 := ⟨b - c - 1, by omega⟩
  have hfuel : emitLoop c b = (List.range' (c + 1) n, c + n) := by
    rw [emitLoop, hn, emitLoopAux_self]
  have hn2 : b - c - 1 = n := by omega
  have hcn : c + n = b - 1 := by omega
  simp only [pollStep]
  rw [if_neg (by omega), if_neg (by omega), hfuel, hn2, hcn]

lemma pollStep_same (c : Nat) : pollStep (some c) c = ([], some c) := by
  simp [pollStep]

/-- C1, counterexample: for the poll sequence 5, 5, 8, `streamBlockNumber`
invokes its callback with 5, 6, 7 — not with 5, 6, 7, 8 as claimed: the gap
loop runs `i` only up to `blockId - 1` and leaves `current = blockId - 1`,
so the newly observed head 8 itself is not emitted. -/
theorem streamBlockNumber_558_counterexample :
    streamBlockNumberEmits [5, 5, 8] = [5, 6, 7] ∧
    streamBlockNumberEmits [5, 5, 8] ≠ [5, 6, 7, 8] := by
  decide

/-- C1, amended: the first poll emits the observed number itself; a later
poll observing `b` greater than the cursor `c` (the last emitted number)
emits every integer in the open interval `(c, b)` — that is `c+1 .. b-1`,
`List.range' (c+1) (b-c-1)` — in ascending order and moves the cursor to
`b - 1`, so the observed number itself is deferred until a strictly greater
observation; a poll observing a number equal to the cursor emits nothing.
Hence for polls 5, 5, 8 the callback receives exactly 5, 6, 7. -/
theorem streamBlockNumber_gap_emission (c b : Nat) (hc : 0 < c) (hb : c < b) :
    pollStep none b = ([b], some b) ∧
    pollStep (some c) b = (List.range' (c + 1) (b - c - 1), some (b - 1)) ∧
    pollStep (some c) c = ([], some c) ∧
    streamBlockNumberEmits [5, 5, 8] = [5, 6, 7] :=
  ⟨rfl, pollStep_gap c b hc hb, pollStep_same c, by decide⟩

/-- Witness for `streamBlockNumber_gap_emission` at the claim's own numbers:
cursor 5, observation 8. -/
theorem streamBlockNumber_gap_emission_witness :
    pollStep none 8 = ([8], some 8) ∧
    pollStep (some 5) 8 = (List.range' (5 + 1) (8 - 5 - 1), some (8 - 1)) ∧
    pollStep (some 5) 5 = ([], some 5) ∧
    streamBlockNumberEmits [5, 5, 8] = [5, 6, 7] :=
  streamBlockNumber_gap_emission 5 8 (by decide) (by decide)

/-- C2, counterexample: for the poll sequence 5, 5, 8, `streamBlock` hands
`this.getBlock` the numbers 5, 6 and 7 — three invocations, including 6 and
7 and never 8 — because its upstream `streamBlockNumber` emits 5, 6, 7 and
the handler fetches every emitted number that differs from the previous
one. -/
theorem streamBlock_fetch_558_counterexample :
    streamBlockFetches [5, 5, 8] = [5, 6, 7] ∧
    streamBlockFetches [5, 5, 8] ≠ [5, 8] ∧
    6 ∈ streamBlockFetches [5, 5, 8] ∧
    7 ∈ streamBlockFetches [5, 5, 8] := by
  decide

/-- C2, amended: given the polled sequence 5, 5, 8, the block-fetch call is
invoked exactly three times — once for 5, once for 6 and once for 7, in that
order — and not for 8, whose fetch is deferred until some later poll
observes a number greater than 8. -/
theorem streamBlock_fetches_each_emitted_number :
    streamBlockFetches [5, 5, 8] = [5, 6, 7] ∧
    (streamBlockFetches [5, 5, 8]).length = 3 ∧
    8 ∉ streamBlockFetches [5, 5, 8] := by
  decide

/-- C3: an inbound frame carrying a (truthy) `error` field whose id matches a
pending call rejects exactly that call — the rejection error's `payload`
attachment is the full inbound message —, removes that call's entry from the
pending table, and leaves every other pending call and every subscription
untouched. -/
theorem errorFrame_rejects_matching_call (s : ClientState) (msg : InMsg)
    (e : TableEntry) (herr : msg.error.isSome = true)
    (hreq : s.requests msg.id = some e) :
    (handleWsMessage s msg).2 = .rejected (rejectText msg) msg ∧
    (handleWsMessage s msg).1.requests msg.id = none ∧
    (∀ j, j ≠ msg.id → (handleWsMessage s msg).1.requests j = s.requests j) ∧
    (handleWsMessage s msg).1.callbacks = s.callbacks := by
  obtain ⟨err, herr2⟩ := Option.isSome_iff_exists.mp herr
  have hlk : lookupEntry s msg.id = some (.fromRequests e) := by
    simp [lookupEntry, hreq]
  refine ⟨?_, ?_, ?_, ?_⟩
  · simp only [handleWsMessage, hlk, onMessage, herr2]
  · simp only [handleWsMessage, hlk, onMessage, herr2]
    simp [eraseKeyI]
  · intro j hj
    simp only [handleWsMessage, hlk, onMessage, herr2]
    simp [eraseKeyI, hj]
  · simp only [handleWsMessage, hlk, onMessage, herr2]

/-- Entries and state used to witness the dispatcher theorems: pending calls
7 and 3, subscription 9. -/
def entry7 : TableEntry := ⟨"database_api", ⟨some 7, "get_block", [JVal.num 7]⟩⟩

def entry3 : TableEntry := ⟨"database_api", ⟨some 3, "get_accounts", []⟩⟩

def entry9 : TableEntry := ⟨"database_api", ⟨some 9, "set_block_applied_callback", []⟩⟩

def c3State : ClientState :=
  { idCtr := 0, wsPresent := true,
    requests := fun i => if i = 7 then some entry7 else if i = 3 then some entry3 else none,
    callbacks := fun i => if i = 9 then some entry9 else none }

def c3Msg : InMsg := { id := 7, error := some ⟨some "x"⟩, result := JVal.null }

/-- Witness for `errorFrame_rejects_matching_call`: the spec's own example
frame, id 7 with error message "x", against a table holding calls 7 and 3
and subscription 9. -/
theorem errorFrame_rejects_matching_call_witness :
    (handleWsMessage c3State c3Msg).2 = .rejected (rejectText c3Msg) c3Msg ∧
    (handleWsMessage c3State c3Msg).1.requests c3Msg.id = none ∧
    (∀ j, j ≠ c3Msg.id →
      (handleWsMessage c3State c3Msg).1.requests j = c3State.requests j) ∧
    (handleWsMessage c3State c3Msg).1.callbacks = c3State.callbacks :=
  errorFrame_rejects_matching_call c3State c3Msg entry7 rfl rfl

def c4State : ClientState :=
  { idCtr := 5, wsPresent := true, requests := fun _ => none,
    callbacks := fun _ => none }

def c4Data : SendData := { id? := some 0, method := "get_block", params := [] }

/-- C4, counterexample: with the auto-id counter at 5 and `data.id`
present with value 0, the envelope written to the wire carries id 5 — not
the supplied 0 — and the counter is consumed (it advances to 6): JavaScript
`data.id || this.id++` treats the falsy 0 as absent. -/
theorem send_id_zero_counterexample :
    (send c4State "database_api" c4Data).1.idCtr = 6 ∧
    envIdOf (send c4State "database_api" c4Data).2 = some 5 ∧
    envIdOf (send c4State "database_api" c4Data).2 ≠ some 0 := by
  decide

/-- C4, amended: if `data.id` is present and nonzero, the envelope carries
exactly `data.id` and the counter is not consumed; if `data.id` is absent —
or present with the falsy value 0 — the envelope carries the next counter
value and the counter advances by one. -/
theorem send_id_resolution (s : ClientState) (api : String) (d : SendData)
    (n : Int) (hws : s.wsPresent = true) :
    (d.id? = some n → n ≠ 0 →
      envIdOf (send s api d).2 = some n ∧ (send s api d).1.idCtr = s.idCtr) ∧
    (d.id? = none ∨ d.id? = some 0 →
      envIdOf (send s api d).2 = some (s.idCtr : Int) ∧
      (send s api d).1.idCtr = s.idCtr + 1) := by
  constructor
  · intro hid hn
    simp only [send, resolveId, hid, hws]
    by_cases hm : d.method ∈ cbMethods <;> simp [hm, envIdOf, hn]
  · rintro (hid | hid) <;>
      · simp only [send, resolveId, hid, hws]
        by_cases hm : d.method ∈ cbMethods <;> simp [hm, envIdOf]

def c4StateB : ClientState :=
  { idCtr := 3, wsPresent := true, requests := fun _ => none,
    callbacks := fun _ => none }

def c4DataB : SendData := { id? := some 9, method := "get_block", params := [] }

/-- Witness for `send_id_resolution`: an explicit nonzero id 9 is carried
verbatim and leaves the counter at 3. -/
theorem send_id_resolution_witness :
    envIdOf (send c4StateB "database_api" c4DataB).2 = some 9 ∧
    (send c4StateB "database_api" c4DataB).1.idCtr = c4StateB.idCtr :=
  (send_id_resolution c4StateB "database_api" c4DataB 9 rfl).1 rfl (by decide)

lemma send_idCtr_of_none (s : ClientState) (api : String) (d : SendData)
    (h : d.id? = none) : (send s api d).1.idCtr = s.idCtr + 1 := by
  simp only [send, resolveId, h]
  by_cases hws : s.wsPresent = false <;>
    by_cases hm : d.method ∈ cbMethods <;> simp [hws, hm]

lemma runSends_auto (calls : List (String × SendData)) :
    ∀ s : ClientState, (∀ c ∈ calls, c.2.id? = none) →
      runSends s calls = (List.range' s.idCtr calls.length).map (fun k : Nat => (k : Int)) := by
  induction calls with
  | nil => intro s _; rfl
  | cons c rest ih =>
    intro s h
    obtain ⟨api, d⟩ := c
    have hd : d.id? = none := h (api, d) (List.mem_cons_self _ _)
    have hrest : ∀ c ∈ rest, c.2.id? = none :=
      fun c hc => h c (List.mem_cons_of_mem _ hc)
    have hctr := send_idCtr_of_none s api d hd
    simp only [runSends, sendAssignedId, resolveId, hd, List.length_cons,
      List.range'_succ]
    rw [ih (send s api d).1 hrest, hctr]
    rfl

/-- C5: on one instance started from the constructor state, the ids
auto-assigned to a sequence of `send` calls that supply no explicit id are
0, 1, 2, … — a strictly increasing sequence starting at 0 — for the lifetime
of the instance. -/
theorem auto_ids_strictly_increasing (calls : List (String × SendData))
    (h : ∀ c ∈ calls, c.2.id? = none) :
    runSends mkClient calls = (List.range calls.length).map (fun k : Nat => (k : Int)) ∧
    (runSends mkClient calls).Pairwise (· < ·) := by
  have h1 := runSends_auto calls mkClient h
  have h0 : mkClient.idCtr = 0 := rfl
  rw [h0] at h1
  constructor
  · rw [List.range_eq_range']
    exact h1
  · rw [h1, ← List.range_eq_range']
    refine List.Pairwise.map (fun k : Nat => (k : Int))
      (fun a b hab => ?_) (List.pairwise_lt_range _)
    simp only []
    exact_mod_cast hab

def c5Calls : List (String × SendData) :=
  [("database_api", ⟨none, "get_block", [JVal.num 1]⟩),
   ("database_api", ⟨none, "get_accounts", []⟩),
   ("database_api", ⟨none, "get_config", []⟩)]

/-- Witness for `auto_ids_strictly_increasing`: three id-less calls on a
fresh instance get ids 0, 1, 2. -/
theorem auto_ids_strictly_increasing_witness :
    runSends mkClient c5Calls = (List.range c5Calls.length).map (fun k : Nat => (k : Int)) ∧
    (runSends mkClient c5Calls).Pairwise (· < ·) :=
  auto_ids_strictly_increasing c5Calls (by decide)

/-- C6: `start()` is idempotent — a second call while the first connection
attempt is pending or completed returns the very same promise and leaves the
state (in particular the count of WebSocket transports constructed)
unchanged. -/
theorem start_idempotent (s : ConnState) :
    (start (start s).1).2 = (start s).2 ∧
    (start (start s).1).1 = (start s).1 ∧
    (start (start s).1).1.wsCount = (start s).1.wsCount := by
  cases h : s.startP <;> simp [start, h]

/-- C7: a `send` whose dispatch step finds `this.ws` gone rejects with the
transport-unavailable error and registers nothing: both the pending-call
table and the subscription table are exactly as before. -/
theorem send_unavailable_no_registration (s : ClientState) (api : String)
    (d : SendData) (h : s.wsPresent = false) :
    (send s api d).2 =
      .failed "The WS connection was closed while this request was pending" ∧
    (send s api d).1.requests = s.requests ∧
    (send s api d).1.callbacks = s.callbacks := by
  simp [send, h]

def c7Data : SendData := { id? := none, method := "get_block", params := [JVal.num 1] }

/-- Witness for `send_unavailable_no_registration`: a fresh instance has no
transport, so its first dispatched call fails and registers nothing. -/
theorem send_unavailable_no_registration_witness :
    (send mkClient "database_api" c7Data).2 =
      .failed "The WS connection was closed while this request was pending" ∧
    (send mkClient "database_api" c7Data).1.requests = mkClient.requests ∧
    (send mkClient "database_api" c7Data).1.callbacks = mkClient.callbacks :=
  send_unavailable_no_registration mkClient "database_api" c7Data rfl

lemma stepEvent_cancelled (s : PipeState) (e : PipeEvent) (h : s.running = false) :
    (stepEvent s e).1.running = false ∧
    ((stepEvent s e).1.pollInFlight = true → s.pollInFlight = true) := by
  cases e with
  | pollReturn b =>
    by_cases hp : s.pollInFlight = false <;> simp [stepEvent, hp, h]
  | timerFire =>
    by_cases ht : s.timerSet = false <;> simp [stepEvent, ht, h]
  | blockReturn n b =>
    simp only [stepEvent]
    split <;> simp [h]
  | cancel => simp [stepEvent]

lemma stepEvent_quiescent (s : PipeState) (e : PipeEvent)
    (hrun : s.running = false) (hp : s.pollInFlight = false)
    (hf : s.fetchesInFlight = []) :
    (stepEvent s e).1.running = false ∧ (stepEvent s e).1.pollInFlight = false ∧
    (stepEvent s e).1.fetchesInFlight = [] ∧ (stepEvent s e).2 = [] := by
  cases e with
  | pollReturn b => simp [stepEvent, hp, hrun, hf]
  | timerFire =>
    by_cases ht : s.timerSet = false <;> simp [stepEvent, ht, hrun, hp, hf]
  | blockReturn n b => simp [stepEvent, hrun, hp, hf]
  | cancel => simp [stepEvent, hrun, hp, hf]

lemma runOutputs_quiescent (tr : List PipeEvent) :
    ∀ s : PipeState, s.running = false → s.pollInFlight = false →
      s.fetchesInFlight = [] → ∀ o ∈ runOutputs s tr, o = [] := by
  induction tr with
  | nil =>
    intro s _ _ _ o ho
    simp [runOutputs] at ho
  | cons e rest ih =>
    intro s hrun hp hf o ho
    obtain ⟨h1, h2, h3, h4⟩ := stepEvent_quiescent s e hrun hp hf
    simp only [runOutputs, List.mem_cons] at ho
    rcases ho with ho | ho
    · rw [ho, h4]
    · exact ih (stepEvent s e).1 h1 h2 h3 o ho

def c8Block : Block := { transactions := some [{ operations := some ["vote"] }] }

def c8Trace : List PipeEvent := [.pollReturn 5, .cancel, .blockReturn 5 (some c8Block)]

/-- C8, counterexample: the first poll of a `streamOperations` pipeline
observes head 5 and issues the block-5 fetch; the stream is then cancelled
while that fetch is in flight; when the fetch completes it nevertheless
invokes the user callback with the block's operation — the cancel flag is
consulted only at the top of a timer-fired `update`, not in the in-flight
completion handlers. -/
theorem streamOperations_cancel_counterexample :
    (stepEvent initPipe (.pollReturn 5)).1.fetchesInFlight = [5] ∧
    runOutputs initPipe c8Trace = [[], [], ["vote"]] ∧
    (runOutputs initPipe c8Trace).getD 2 [] ≠ [] := by
  decide

/-- C8, amended: after cancellation the stream never resumes — no event
turns polling back on and the cancelled flag is permanent — and once no poll
and no block fetch is in flight any further sequence of events invokes the
callback with nothing at all; but a poll or block fetch that was in flight
at cancellation time still runs its completion handler, which can invoke the
callback (see the counterexample) though it schedules no further poll. -/
theorem streamOperations_cancel_amended (s : PipeState) (tr : List PipeEvent)
    (hrun : s.running = false) :
    (∀ e : PipeEvent, (stepEvent s e).1.running = false ∧
      ((stepEvent s e).1.pollInFlight = true → s.pollInFlight = true)) ∧
    (s.pollInFlight = false → s.fetchesInFlight = [] →
      ∀ o ∈ runOutputs s tr, o = []) :=
  ⟨fun e => stepEvent_cancelled s e hrun,
   fun hp hf => runOutputs_quiescent tr s hrun hp hf⟩

def c8Quiet : PipeState :=
  { running := false, current := some 5, last := some 5, pollInFlight := false,
    timerSet := true, fetchesInFlight := [], crashed := false }

def c8TraceB : List PipeEvent := [.timerFire, .pollReturn 9, .cancel]

/-- Witness for `streamOperations_cancel_amended`: a cancelled pipeline with
nothing in flight (only the redundant timer set) stays silent on a trace
that fires the timer and tries a poll completion. -/
theorem streamOperations_cancel_amended_witness :
    (∀ e : PipeEvent, (stepEvent c8Quiet e).1.running = false ∧
      ((stepEvent c8Quiet e).1.pollInFlight = true → c8Quiet.pollInFlight = true)) ∧
    (c8Quiet.pollInFlight = false → c8Quiet.fetchesInFlight = [] →
      ∀ o ∈ runOutputs c8Quiet c8TraceB, o = []) :=
  streamOperations_cancel_amended c8Quiet c8TraceB rfl

lemma argOption_at_name (p : String) (a? : Option JVal) :
    argOption p a? (paramName p) =
      (match a? with
       | some a => if jvTruthy a then some a else none
       | none => none) := by
  cases a? with
  | none => rfl
  | some a => by_cases ht : jvTruthy a <;> simp [argOption, ht, setKeyS, emptyObj]

lemma argOption_other (p : String) (a? : Option JVal) (k : String)
    (h : k ≠ paramName p) : argOption p a? k = none := by
  cases a? with
  | none => rfl
  | some a => by_cases ht : jvTruthy a <;> simp [argOption, ht, setKeyS, emptyObj, h]

lemma buildOptions_not_mem (ps : List String) (args : List JVal) (k : String)
    (h : k ∉ ps.map paramName) : buildOptions ps args k = none := by
  induction ps generalizing args with
  | nil => rfl
  | cons p rest ih =>
    simp only [List.map_cons, List.mem_cons, not_or] at h
    simp only [buildOptions, objAssign]
    rw [ih (args.drop 1) h.2]
    show argOption p args.head? k = none
    exact argOption_other p args.head? k h.1

lemma buildOptions_at (ps : List String) :
    ∀ (args : List JVal) (i : Nat) (hi : i < ps.length),
      (ps.map paramName).Nodup →
      buildOptions ps args (paramName (ps.get ⟨i, hi⟩)) =
        (match args.get? i with
         | some a => if jvTruthy a then some a else none
         | none => none) := by
  induction ps with
  | nil =>
    intro args i hi _
    simp at hi
  | cons p rest ih =>
    intro args i hi hnd
    simp only [List.map_cons, List.nodup_cons] at hnd
    cases i with
    | zero =>
      have hget : (p :: rest).get ⟨0, hi⟩ = p := rfl
      simp only [buildOptions, objAssign, hget]
      rw [buildOptions_not_mem rest (args.drop 1) (paramName p) hnd.1]
      show argOption p args.head? (paramName p) = _
      rw [argOption_at_name]
      cases args <;> rfl
    | succ j =>
      have hj : j < rest.length := by simpa using hi
      have hget : (p :: rest).get ⟨j + 1, hi⟩ = rest.get ⟨j, hj⟩ := rfl
      have hkne : paramName (rest.get ⟨j, hj⟩) ≠ paramName p := by
        intro heq
        exact hnd.1 (heq ▸ List.mem_map_of_mem _ (rest.get_mem j hj))
      have hdrop : (args.drop 1).get? j = args.get? (j + 1) := by
        cases args <;> simp
      simp only [buildOptions, objAssign, hget]
      rw [ih (args.drop 1) j hj hnd.2, argOption_other p args.head? _ hkne, hdrop]
      cases hg : args.get? (j + 1) with
      | none => rfl
      | some a => by_cases ht : jvTruthy a <;> simp [ht]

/-- C9, amended: for an entry whose parameter names are distinct (true of
the registry), the generated positional call maps each supplied truthy
argument to the parameter at the same declared position, and every omitted
(or falsy) parameter takes its value from the shared `defaultParms` object
as it currently stands — which, because `Object.assign(defaultParms,
options)` mutates that shared object, afterwards holds exactly the values
this call sent, so the defaults applied to later calls incorporate the
arguments of earlier calls rather than the entry's declared defaults. -/
theorem specializedSend_maps_args_shared_defaults (e : MethodEntry) (d : Obj)
    (args : List JVal) (i : Nat) (hi : i < e.params.length)
    (hnd : (e.params.map paramName).Nodup) :
    (specializedSend e d args).2.get? i =
      some (match args.get? i with
            | some a =>
              if jvTruthy a then some a
              else d (paramName (e.params.get ⟨i, hi⟩))
            | none => d (paramName (e.params.get ⟨i, hi⟩))) ∧
    (specializedSend e d args).1 (paramName (e.params.get ⟨i, hi⟩)) =
      (match args.get? i with
       | some a =>
         if jvTruthy a then some a
         else d (paramName (e.params.get ⟨i, hi⟩))
       | none => d (paramName (e.params.get ⟨i, hi⟩))) := by
  have hkey := buildOptions_at e.params args i hi hnd
  have hmerged :
      objAssign d (buildOptions e.params args) (paramName (e.params.get ⟨i, hi⟩)) =
        (match args.get? i with
         | some a =>
           if jvTruthy a then some a
           else d (paramName (e.params.get ⟨i, hi⟩))
         | none => d (paramName (e.params.get ⟨i, hi⟩))) := by
    simp only [objAssign, hkey]
    cases hg : args.get? i with
    | none => rfl
    | some a => by_cases ht : jvTruthy a <;> simp [ht]
  constructor
  · simp only [specializedSend, specializedSendWith]
    rw [List.get?_map, List.get?_eq_get hi]
    simp only [Option.map_some']
    rw [hmerged]
  · exact hmerged

def c9Entry : MethodEntry :=
  { api := "database_api", method := "get_discussions_by_created",
    params := ["p=1"], has_default_values := true }

/-- C9, counterexample: a registry entry with one parameter `p` whose
declared default is `1`. The first call supplies 5, the second call supplies
nothing; because `Object.assign(defaultParms, options)` mutated the shared
defaults object, the second call sends 5 — the first call's argument — and
not the entry's declared (parsed) default, so the defaults applied to one
call are not independent of the arguments supplied to earlier calls. -/
theorem specializedSend_shared_defaults_counterexample :
    runCalls c9Entry (initDefaults c9Entry) [[JVal.num 5], []] =
      [[some (JVal.num 5)], [some (JVal.num 5)]] ∧
    initDefaults c9Entry "p" = some (jsonParse "1") ∧
    (runCalls c9Entry (initDefaults c9Entry) [[JVal.num 5], []]).getD 1 [] ≠
      [some (jsonParse "1")] := by
  decide

def c9EntryB : MethodEntry :=
  { api := "database_api", method := "get_block", params := ["p=1", "q"],
    has_default_values := true }

/-- Witness for `specializedSend_maps_args_shared_defaults`: entry with
parameters `p` (default 1) and `q`, one supplied argument, inspected at the
omitted second parameter. -/
theorem specializedSend_maps_args_shared_defaults_witness :
    (specializedSend c9EntryB (initDefaults c9EntryB) [JVal.num 5]).2.get? 1 =
      some (match [JVal.num 5].get? 1 with
            | some a =>
              if jvTruthy a then some a
              else initDefaults c9EntryB
                (paramName (c9EntryB.params.get ⟨1, by decide⟩))
            | none => initDefaults c9EntryB
                (paramName (c9EntryB.params.get ⟨1, by decide⟩))) ∧
    (specializedSend c9EntryB (initDefaults c9EntryB) [JVal.num 5]).1
        (paramName (c9EntryB.params.get ⟨1, by decide⟩)) =
      (match [JVal.num 5].get? 1 with
       | some a =>
         if jvTruthy a then some a
         else initDefaults c9EntryB
           (paramName (c9EntryB.params.get ⟨1, by decide⟩))
       | none => initDefaults c9EntryB
           (paramName (c9EntryB.params.get ⟨1, by decide⟩))) :=
  specializedSend_maps_args_shared_defaults c9EntryB (initDefaults c9EntryB)
    [JVal.num 5] 1 (by decide) (by decide)

/-- C10: a falsy block result, or a block whose `transactions` field is
absent, makes `streamTransactions` deliver nothing — silently, with no
callback invocation and no error (its handler is total) — whereas
`streamOperations` reads `operations` from every delivered transaction
unconditionally: its handler succeeds exactly when the transaction carries
an operations list, and throws a TypeError otherwise. -/
theorem streamTransactions_skips_streamOperations_throws
    (b : Block) (t : Transaction) (hb : b.transactions = none) :
    streamTransactionsHandler (some b) = [] ∧
    streamTransactionsHandler none = [] ∧
    ((streamOperationsHandler t).toOption.isSome = t.operations.isSome) := by
  refine ⟨?_, rfl, ?_⟩
  · simp [streamTransactionsHandler, hb]
  · cases h : t.operations <;> simp [streamOperationsHandler, h, Except.toOption]

/-- Witness for `streamTransactions_skips_streamOperations_throws`: a block
with no `transactions` field and a transaction carrying one operation. -/
theorem streamTransactions_skips_streamOperations_throws_witness :
    streamTransactionsHandler (some { transactions := none }) = [] ∧
    streamTransactionsHandler none = [] ∧
    ((streamOperationsHandler { operations := some ["vote"] }).toOption.isSome =
      (Transaction.operations { operations := some ["vote"] }).isSome) :=
  streamTransactions_skips_streamOperations_throws
    { transactions := none } { operations := some ["vote"] } rfl
